import Mathlib

/-!
Verification of the behavox event-queue / worker-pool core.

The definitions below are a shallow embedding of the Go source:
  * `internal/models/events.go` — `BaseEvent`, `EventLog`, `EventMetric`;
  * the `data` package queue (`EventQueue`, `PutEvent`, `GetEvent`, `Size`);
  * `worker/worker.go` — the per-event retry task, the dispatch loop's
    semaphore acquisition, `Shutdown`, and `processEvent`'s latency
    computation and `ThreadID` mutation;
  * the `helpers` package's `BackgroundJob` defer/recover structure.

Time values (`time.Time`, `time.Now()`) are modelled as natural numbers
(nanosecond counts); the zero value of `time.Time` is `0`.  Go's
`float64`/`float32` metric payload is modelled as `Rat`; no claim computes
with the payload value.  `time.Duration` is an `Int` nanosecond count, as
in Go.
-/

/-- `BaseEvent` from internal/models/events.go: common header of both event
variants.  `Timestamp` is the formatted construction time (formatting is
abstracted to `toString`); `EnqueueTime` is the admission stamp, `0` before
admission (Go's `time.Time{}` zero value). -/
structure BaseEvent where
  EventID : String
  Timestamp : String
  ThreadID : Int
  EnqueueTime : Nat
  deriving DecidableEq, Repr

/-- The `Event` interface has exactly two implementations in the source:
`EventLog` (level, message) and `EventMetric` (value). -/
inductive Event where
  | log (base : BaseEvent) (Level : String) (Message : String)
  | metric (base : BaseEvent) (Value : Rat)
  deriving DecidableEq, Repr

/-- `NewBaseEvent` (events.go:35-42): `ThreadID` starts at 0 and
`EnqueueTime` at the zero value; `Timestamp` records construction time. -/
def NewBaseEvent (eventID : String) (now : Nat) : BaseEvent :=
  { EventID := eventID, Timestamp := toString now, ThreadID := 0, EnqueueTime := 0 }

/-- `NewEventLog` (events.go:102-108). -/
def NewEventLog (eventID level message : String) (now : Nat) : Event :=
  Event.log (NewBaseEvent eventID now) level message

/-- `NewEventMetric` (events.go:74-79). -/
def NewEventMetric (eventID : String) (value : Rat) (now : Nat) : Event :=
  Event.metric (NewBaseEvent eventID now) value

/-- Common header of an event. -/
def Event.base : Event → BaseEvent
  | Event.log b _ _ => b
  | Event.metric b _ => b

/-- The `EnqueueTime` field of an event's header. -/
def Event.enqTime (e : Event) : Nat := e.base.EnqueueTime

/-- The `ThreadID` field of an event's header. -/
def Event.threadID (e : Event) : Int := e.base.ThreadID

/-- The type switch in `PutEvent` (part_001 lines 102-107) stamps
`EnqueueTime` on both `*EventLog` and `*EventMetric`, the only two
implementations of `Event`. -/
def setEnqueueTime : Event → Nat → Event
  | Event.log b l m, t => Event.log { b with EnqueueTime := t } l m
  | Event.metric b v, t => Event.metric { b with EnqueueTime := t } v

/-- The type switch in `processEvent` (worker.go:208-212) writes `ThreadID`
on both variants. -/
def setThreadID : Event → Int → Event
  | Event.log b l m, t => Event.log { b with ThreadID := t } l m
  | Event.metric b v, t => Event.metric { b with ThreadID := t } v

/-- The fields of an event that the spec declares immutable after
construction: identifier, construction timestamp, and the variant payload
(level/message for a log, value for a metric). -/
def eventFrame : Event → String × String × (String × String ⊕ Rat)
  | Event.log b l m => (b.EventID, b.Timestamp, Sum.inl (l, m))
  | Event.metric b v => (b.EventID, b.Timestamp, Sum.inr v)

/-- `EventQueue` (part_001 lines 78-81): a buffered channel of capacity
`Capacity`.  The channel contents are the FIFO list `Events`, head =
next to be received. -/
structure EventQueue where
  Capacity : Nat
  Events : List Event
  deriving DecidableEq, Repr

/-- `NewEventQueue` (part_001 lines 83-89): empty channel whose capacity
equals the configured queue size. -/
def NewEventQueue (size : Nat) : EventQueue :=
  { Capacity := size, Events := [] }

/-- Result of a `PutEvent` call: the queue afterwards, the caller's event
object afterwards (Go mutates the event in place through its pointer), and
the returned error. -/
structure PutResult where
  queue : EventQueue
  event : Event
  err : Option String
  deriving DecidableEq, Repr

/-- `PutEvent` (part_001 lines 94-112): reject with "event queue is full"
when `len(eq.Events) == cap(eq.Events)` (the channel capacity equals
`Capacity` by construction); otherwise stamp `EnqueueTime = now` on the
event and send it to the tail of the channel. -/
def EventQueue.PutEvent (eq : EventQueue) (event : Event) (now : Nat) : PutResult :=
  if eq.Events.length = eq.Capacity then
    { queue := eq, event := event, err := some "event queue is full" }
  else
    let stamped := setEnqueueTime event now
    { queue := { eq with Events := eq.Events ++ [stamped] },
      event := stamped, err := none }

/-- `GetEvent` (part_001 lines 117-126): return `nil` when the queue is
empty, otherwise receive the head of the channel (FIFO). -/
def EventQueue.GetEvent (eq : EventQueue) : Option Event × EventQueue :=
  match eq.Events with
  | [] => (none, eq)
  | e :: rest => (some e, { eq with Events := rest })

/-- `Size` (part_001 lines 131-135): `len(eq.Events)`. -/
def EventQueue.Size (eq : EventQueue) : Nat := eq.Events.length

/-- One operation against the queue: a `PutEvent` of a given event at a
given time, or a `GetEvent`. -/
inductive QueueOp where
  | put (e : Event) (now : Nat)
  | get
  deriving DecidableEq, Repr

/-- Apply one operation to the queue, keeping only the queue state. -/
def applyOp (eq : EventQueue) : QueueOp → EventQueue
  | QueueOp.put e now => (eq.PutEvent e now).queue
  | QueueOp.get => (eq.GetEvent).2

/-- Run a sequence of queue operations. -/
def runOps (eq : EventQueue) : List QueueOp → EventQueue
  | [] => eq
  | op :: rest => runOps (applyOp eq op) rest

lemma applyOp_capacity (eq : EventQueue) (op : QueueOp) :
    (applyOp eq op).Capacity = eq.Capacity := by
  cases op with
  | put e now =>
    simp only [applyOp, EventQueue.PutEvent]
    by_cases h : eq.Events.length = eq.Capacity <;> simp [h]
  | get =>
    simp only [applyOp, EventQueue.GetEvent]
    cases eq.Events <;> simp

lemma applyOp_length (eq : EventQueue) (op : QueueOp)
    (h : eq.Events.length ≤ eq.Capacity) :
    (applyOp eq op).Events.length ≤ eq.Capacity := by
  cases op with
  | put e now =>
    simp only [applyOp, EventQueue.PutEvent]
    by_cases hfull : eq.Events.length = eq.Capacity
    · simp [hfull]
    · have hlt : eq.Events.length < eq.Capacity := lt_of_le_of_ne h hfull
      simpa [hfull] using hlt
  | get =>
    simp only [applyOp, EventQueue.GetEvent]
    cases hev : eq.Events with
    | nil => simp [hev]
    | cons e rest =>
      have := h
      rw [hev] at this
      simp at this
      simpa [hev] using Nat.le_of_succ_le this

lemma runOps_capacity (ops : List QueueOp) (eq : EventQueue) :
    (runOps eq ops).Capacity = eq.Capacity := by
  induction ops generalizing eq with
  | nil => rfl
  | cons op rest ih => rw [runOps, ih, applyOp_capacity]

lemma runOps_length (ops : List QueueOp) (eq : EventQueue)
    (h : eq.Events.length ≤ eq.Capacity) :
    (runOps eq ops).Events.length ≤ eq.Capacity := by
  induction ops generalizing eq with
  | nil => exact h
  | cons op rest ih =>
    rw [runOps]
    have hcap := applyOp_capacity eq op
    have hlen := applyOp_length eq op h
    rw [← hcap] at hlen
    have := ih (applyOp eq op) hlen
    rwa [hcap] at this

/-- Claim C1: `PutEvent` fails with the queue-full error exactly when the
occupancy equals the capacity at the instant of the call; on that failure
the queue contents and the event (in particular its `EnqueueTime`) are
unchanged, and otherwise it appends the event at the tail, stamps the
event's `EnqueueTime` with the admission time, and returns success. -/
theorem putEvent_admission_control (eq : EventQueue) (e : Event) (now : Nat) :
    ((eq.PutEvent e now).err.isSome ↔ eq.Events.length = eq.Capacity) ∧
    (eq.Events.length = eq.Capacity →
      (eq.PutEvent e now).err = some "event queue is full" ∧
      (eq.PutEvent e now).queue = eq ∧
      (eq.PutEvent e now).event = e) ∧
    (eq.Events.length ≠ eq.Capacity →
      (eq.PutEvent e now).err = none ∧
      (eq.PutEvent e now).queue.Events = eq.Events ++ [setEnqueueTime e now] ∧
      (eq.PutEvent e now).event = setEnqueueTime e now ∧
      (eq.PutEvent e now).event.enqTime = now) := by
  by_cases h : eq.Events.length = eq.Capacity
  · refine ⟨by simp [EventQueue.PutEvent, h], fun _ => ⟨?_, ?_, ?_⟩, fun hc => absurd h hc⟩
    all_goals simp [EventQueue.PutEvent, h]
  · refine ⟨by simp [EventQueue.PutEvent, h], fun hc => absurd hc h, fun _ => ⟨?_, ?_, ?_, ?_⟩⟩
    all_goals cases e <;> simp [EventQueue.PutEvent, h, setEnqueueTime, Event.enqTime, Event.base]

/-- Witness for C1 at concrete inputs: a queue at capacity rejects and
leaves the event untouched; a queue with room admits and stamps. -/
theorem putEvent_admission_control_witness :
    ((NewEventQueue 0).PutEvent (NewEventLog "a" "info" "m" 1) 3).event
      = NewEventLog "a" "info" "m" 1 ∧
    ((NewEventQueue 1).PutEvent (NewEventLog "a" "info" "m" 1) 3).err = none :=
  ⟨((putEvent_admission_control (NewEventQueue 0) (NewEventLog "a" "info" "m" 1) 3).2.1
      rfl).2.2,
   ((putEvent_admission_control (NewEventQueue 1) (NewEventLog "a" "info" "m" 1) 3).2.2
      (by decide)).1⟩

/-- Claim C2: starting from a freshly constructed queue of positive
capacity, after any sequence of `PutEvent`/`GetEvent` operations the
occupancy reported by `Size` lies between 0 and the capacity, and any
`PutEvent` attempted while the occupancy equals the capacity receives the
queue-full error. -/
theorem queue_capacity_invariant (cap : Nat) (_hpos : 0 < cap) (ops : List QueueOp) :
    0 ≤ (runOps (NewEventQueue cap) ops).Size ∧
    (runOps (NewEventQueue cap) ops).Size ≤ cap ∧
    (∀ e now, (runOps (NewEventQueue cap) ops).Size = cap →
      ((runOps (NewEventQueue cap) ops).PutEvent e now).err = some "event queue is full") := by
  have hcap := runOps_capacity ops (NewEventQueue cap)
  have hlen := runOps_length ops (NewEventQueue cap) (by simp [NewEventQueue])
  refine ⟨Nat.zero_le _, ?_, ?_⟩
  · simpa [NewEventQueue, EventQueue.Size] using hlen
  · intro e now hsz
    have hc : (runOps (NewEventQueue cap) ops).Capacity = cap := by
      simpa [NewEventQueue] using hcap
    have hfull : (runOps (NewEventQueue cap) ops).Events.length
        = (runOps (NewEventQueue cap) ops).Capacity := by
      rw [hc]
      simpa [EventQueue.Size] using hsz
    simp [EventQueue.PutEvent, hfull]

/-- Witness for C2: capacity 1, the sequence put-put-get, occupancy within
bounds. -/
theorem queue_capacity_invariant_witness :
    (runOps (NewEventQueue 1)
      [QueueOp.put (NewEventLog "a" "info" "m" 1) 2,
       QueueOp.put (NewEventLog "b" "warn" "n" 1) 3, QueueOp.get]).Size ≤ 1 :=
  (queue_capacity_invariant 1 Nat.one_pos
    [QueueOp.put (NewEventLog "a" "info" "m" 1) 2,
     QueueOp.put (NewEventLog "b" "warn" "n" 1) 3, QueueOp.get]).2.1

/-- A run of the queue together with its observable history: the events
successfully admitted (in admission order, as stamped by `PutEvent`) and
the events returned by `GetEvent` (in dequeue order). -/
structure QueueTrace where
  queue : EventQueue
  admitted : List Event
  dequeued : List Event
  deriving DecidableEq, Repr

/-- One operation applied to a trace, recording admissions and dequeues. -/
def traceStep (t : QueueTrace) : QueueOp → QueueTrace
  | QueueOp.put e now =>
    let r := t.queue.PutEvent e now
    match r.err with
    | some _ => { t with queue := r.queue }
    | none => { queue := r.queue, admitted := t.admitted ++ [r.event],
                dequeued := t.dequeued }
  | QueueOp.get =>
    match t.queue.GetEvent with
    | (none, q) => { t with queue := q }
    | (some e, q) => { t with queue := q, dequeued := t.dequeued ++ [e] }

/-- Run a sequence of operations on a trace. -/
def runTrace (t : QueueTrace) : List QueueOp → QueueTrace
  | [] => t
  | op :: rest => runTrace (traceStep t op) rest

/-- The trace of a fresh queue of the given capacity. -/
def freshTrace (cap : Nat) : QueueTrace :=
  { queue := NewEventQueue cap, admitted := [], dequeued := [] }

lemma traceStep_fifo (t : QueueTrace)
    (h : t.admitted = t.dequeued ++ t.queue.Events) (op : QueueOp) :
    (traceStep t op).admitted
      = (traceStep t op).dequeued ++ (traceStep t op).queue.Events := by
  cases op with
  | put e now =>
    simp only [traceStep, EventQueue.PutEvent]
    by_cases hfull : t.queue.Events.length = t.queue.Capacity
    · simp [hfull, h]
    · simp [hfull, h]
  | get =>
    simp only [traceStep, EventQueue.GetEvent]
    cases hev : t.queue.Events with
    | nil => simpa [hev] using h
    | cons e rest =>
      rw [hev] at h
      simp [h]

lemma runTrace_fifo (ops : List QueueOp) (t : QueueTrace)
    (h : t.admitted = t.dequeued ++ t.queue.Events) :
    (runTrace t ops).admitted
      = (runTrace t ops).dequeued ++ (runTrace t ops).queue.Events := by
  induction ops generalizing t with
  | nil => exact h
  | cons op rest ih => exact ih (traceStep t op) (traceStep_fifo t h op)

/-- Claim C4: `GetEvent` returns `none` and leaves the queue unchanged when
the queue is empty, and otherwise removes and returns the head event in
FIFO admission order; consequently, over every operation sequence from a
fresh queue, the admitted events are exactly the dequeued events followed
by the still-buffered events, so dequeue order equals admission order (an
event admitted strictly earlier is dequeued no later). -/
theorem getEvent_fifo (cap : Nat) (c : Nat) (e : Event) (rest : List Event)
    (ops : List QueueOp) :
    (EventQueue.mk c []).GetEvent = (none, EventQueue.mk c []) ∧
    (EventQueue.mk c (e :: rest)).GetEvent = (some e, EventQueue.mk c rest) ∧
    (runTrace (freshTrace cap) ops).admitted
      = (runTrace (freshTrace cap) ops).dequeued
        ++ (runTrace (freshTrace cap) ops).queue.Events := by
  refine ⟨rfl, rfl, ?_⟩
  exact runTrace_fifo ops (freshTrace cap) (by simp [freshTrace, NewEventQueue])

/-- The terminal outcome recorded for a processing task, matching the
label passed to the outcome metric in worker.go (lines 104, 122, 137). -/
inductive Outcome where
  | success
  | failed
  | skipped
  deriving DecidableEq, Repr

/-- Result of one per-event processing task: the recorded outcome, how
many times `processEvent` was invoked, and how many times the retry
counter was incremented. -/
structure TaskResult where
  outcome : Outcome
  invocations : Nat
  retryInc : Nat
  deriving DecidableEq, Repr

/-- The per-event task of `Worker.Run` (worker.go:92-140).  `process n`
is the success/failure of the n-th `processEvent` invocation (`true` =
no error); `cancelledAtCheck` is whether `runCtx.Done()` is ready at the
post-backoff select (worker.go:100-108).  The code: invoke once; on
failure sleep the backoff, then if cancelled record "skipped" and return,
else increment the retry counter and invoke a second time; a second
failure records "failed"; otherwise fall through to record "success".
The definition only ever consults attempts 0 and 1: there is no third
invocation on any path. -/
def runEventTask (process : Nat → Bool) (cancelledAtCheck : Bool) : TaskResult :=
  if process 0 then
    { outcome := Outcome.success, invocations := 1, retryInc := 0 }
  else if cancelledAtCheck then
    { outcome := Outcome.skipped, invocations := 1, retryInc := 0 }
  else if process 1 then
    { outcome := Outcome.success, invocations := 2, retryInc := 1 }
  else
    { outcome := Outcome.failed, invocations := 2, retryInc := 1 }

/-- Claim C3: with no shutdown requested, a processing function that fails
on its first invocation and succeeds on its second yields outcome
"success" with exactly 2 invocations; one that fails on both (i.e. always
fails, since no path performs a third invocation) yields outcome "failed"
with exactly 2 invocations, never more. -/
theorem retry_once_law (process : Nat → Bool) (hfail : process 0 = false) :
    (process 1 = true →
      runEventTask process false
        = { outcome := Outcome.success, invocations := 2, retryInc := 1 }) ∧
    (process 1 = false →
      runEventTask process false
        = { outcome := Outcome.failed, invocations := 2, retryInc := 1 }) := by
  constructor <;> intro h <;> simp [runEventTask, hfail, h]

/-- Witness for C3: a function failing exactly on attempt 0, and one that
always fails. -/
theorem retry_once_law_witness :
    runEventTask (fun n => n == 1) false
      = { outcome := Outcome.success, invocations := 2, retryInc := 1 } ∧
    runEventTask (fun _ => false) false
      = { outcome := Outcome.failed, invocations := 2, retryInc := 1 } :=
  ⟨(retry_once_law (fun n => n == 1) rfl).1 rfl,
   (retry_once_law (fun _ => false) rfl).2 rfl⟩

/-- Claim C5: when the first invocation fails and the cancellation signal
is already set at the post-backoff check, the task records "skipped" and
exits after exactly 1 invocation, with no retry-counter increment. -/
theorem skip_on_shutdown (process : Nat → Bool) (hfail : process 0 = false) :
    runEventTask process true
      = { outcome := Outcome.skipped, invocations := 1, retryInc := 0 } := by
  simp [runEventTask, hfail]

/-- Witness for C5 at a concrete always-failing processing function. -/
theorem skip_on_shutdown_witness :
    runEventTask (fun _ => false) true
      = { outcome := Outcome.skipped, invocations := 1, retryInc := 0 } :=
  skip_on_shutdown (fun _ => false) rfl

/-- Where the dispatch loop of `Worker.Run` (worker.go:56-146) currently
is: at the `select` over the events channel and `runCtx.Done()`
(worker.go:57-58, 142), blocked on the semaphore send
`semaphore <- struct` (worker.go:61) holding a received event, or
returned. -/
inductive LoopPhase where
  | selecting
  | acquiring (e : Event)
  | exited
  deriving DecidableEq, Repr

/-- State of the dispatch loop together with its environment: the
cancellation flag of `runCtx`, the semaphore occupancy and capacity
(`CmdmaxWorkerGoroutines`), the events channel, and the processing tasks
started so far. -/
structure DispatchState where
  phase : LoopPhase
  cancelled : Bool
  semInUse : Nat
  semCap : Nat
  pending : List Event
  started : List Event
  deriving DecidableEq, Repr

/-- The primitive transitions of the loop and its environment.
`selectEvent`/`selectDone` are the two branches of the `select` at the
top of the loop; `cancelSignal` is the environment setting the
cancellation flag; `taskRelease` is a finished task executing the
deferred semaphore read (worker.go:64); `acquireSlot` is the blocked
semaphore send completing.  The send at worker.go:61 is a plain channel
send, not a `select` including `runCtx.Done()`: accordingly, in the
`acquiring` phase no transition consults `cancelled`. -/
inductive DispatchLabel where
  | selectEvent
  | selectDone
  | cancelSignal
  | taskRelease
  | acquireSlot
  deriving DecidableEq, Repr

/-- One transition of the dispatch-loop model; a label that is not
enabled in the current state leaves the state unchanged. -/
def dispatchStep (s : DispatchState) : DispatchLabel → DispatchState
  | DispatchLabel.selectEvent =>
    match s.phase, s.pending with
    | LoopPhase.selecting, e :: rest =>
      { s with phase := LoopPhase.acquiring e, pending := rest }
    | _, _ => s
  | DispatchLabel.selectDone =>
    match s.phase, s.cancelled with
    | LoopPhase.selecting, true => { s with phase := LoopPhase.exited }
    | _, _ => s
  | DispatchLabel.cancelSignal => { s with cancelled := true }
  | DispatchLabel.taskRelease =>
    if 0 < s.semInUse then { s with semInUse := s.semInUse - 1 } else s
  | DispatchLabel.acquireSlot =>
    match s.phase with
    | LoopPhase.acquiring e =>
      if s.semInUse < s.semCap then
        { s with phase := LoopPhase.selecting, semInUse := s.semInUse + 1,
                 started := s.started ++ [e] }
      else s
    | _ => s

/-- Run a sequence of transitions of the dispatch-loop model. -/
def dispatchRun (s : DispatchState) : List DispatchLabel → DispatchState
  | [] => s
  | l :: rest => dispatchRun (dispatchStep s l) rest

/-- A concrete event for the dispatch-loop executions. -/
def dEvent : Event := NewEventLog "e1" "info" "m" 0

/-- Concurrency limit 1, one slot already held by an in-flight task, one
event pending: the loop receives the event and then blocks on the
semaphore send. -/
def dStart : DispatchState :=
  { phase := LoopPhase.selecting, cancelled := false, semInUse := 1,
    semCap := 1, pending := [dEvent], started := [] }

/-- Counterexample to claim C6: an execution in which the cancellation
signal is set while the loop is blocked waiting for a semaphore slot
(all slots held), yet when a slot frees the loop starts the processing
task for the event instead of exiting — the semaphore send at
worker.go:61 is not selected against `runCtx.Done()`, so the
limiter-acquisition wait is not interruptible by cancellation. -/
theorem dispatch_cancel_during_acquire_starts_task :
    (dispatchRun dStart
      [DispatchLabel.selectEvent, DispatchLabel.cancelSignal]).phase
      = LoopPhase.acquiring dEvent ∧
    (dispatchRun dStart
      [DispatchLabel.selectEvent, DispatchLabel.cancelSignal]).cancelled = true ∧
    (dispatchRun dStart
      [DispatchLabel.selectEvent, DispatchLabel.cancelSignal,
       DispatchLabel.taskRelease, DispatchLabel.acquireSlot]).started
      = [dEvent] ∧
    (dispatchRun dStart
      [DispatchLabel.selectEvent, DispatchLabel.cancelSignal,
       DispatchLabel.taskRelease, DispatchLabel.acquireSlot]).phase
      ≠ LoopPhase.exited := by
  refine ⟨rfl, rfl, rfl, ?_⟩
  decide

/-- Claim C6 as amended: the limiter-acquisition wait is not
cancellation-aware.  While the loop is blocked acquiring a slot, setting
the cancellation signal (or any transition other than the semaphore send
completing) leaves it blocked on the same event, the loop cannot exit
from that phase in one transition, and when a slot is free the send
completes and the task for the received event is started regardless of
the cancellation flag. -/
theorem acquire_wait_not_cancellation_aware (s : DispatchState) (e : Event)
    (h : s.phase = LoopPhase.acquiring e) :
    (∀ l, l ≠ DispatchLabel.acquireSlot →
      (dispatchStep s l).phase = LoopPhase.acquiring e) ∧
    (∀ l, (dispatchStep s l).phase ≠ LoopPhase.exited) ∧
    (s.semInUse < s.semCap →
      (dispatchStep s DispatchLabel.acquireSlot).started = s.started ++ [e] ∧
      (dispatchStep s DispatchLabel.acquireSlot).phase = LoopPhase.selecting) := by
  refine ⟨?_, ?_, ?_⟩
  · intro l hl
    cases l with
    | selectEvent => simp [dispatchStep, h]
    | selectDone => simp [dispatchStep, h]
    | cancelSignal => simp [dispatchStep, h]
    | taskRelease =>
      by_cases hs : 0 < s.semInUse <;> simp [dispatchStep, hs, h]
    | acquireSlot => exact absurd rfl hl
  · intro l
    cases l with
    | selectEvent => simp [dispatchStep, h]
    | selectDone => simp [dispatchStep, h]
    | cancelSignal => simp [dispatchStep, h]
    | taskRelease =>
      by_cases hs : 0 < s.semInUse <;> simp [dispatchStep, hs, h]
    | acquireSlot =>
      by_cases hs : s.semInUse < s.semCap <;> simp [dispatchStep, h, hs]
  · intro hs
    constructor <;> simp [dispatchStep, h, hs]

/-- Witness for the amended C6 at a concrete blocked state with the
cancellation flag already set. -/
theorem acquire_wait_not_cancellation_aware_witness :
    (dispatchStep
      { phase := LoopPhase.acquiring dEvent, cancelled := true, semInUse := 1,
        semCap := 1, pending := [], started := [] }
      DispatchLabel.cancelSignal).phase = LoopPhase.acquiring dEvent :=
  (acquire_wait_not_cancellation_aware
    { phase := LoopPhase.acquiring dEvent, cancelled := true, semInUse := 1,
      semCap := 1, pending := [], started := [] } dEvent rfl).1
    DispatchLabel.cancelSignal (by decide)

/-- State of the worker visible to `Shutdown` (worker.go:152-173): the
cancellation flag of the worker context, the WaitGroup counter, and the
identifiers of still-running tasks (which `Shutdown` never touches). -/
structure WorkerModel where
  cancelled : Bool
  barrier : Nat
  runningTasks : List String
  deriving DecidableEq, Repr

/-- `Worker.Shutdown` (worker.go:152-173): first `w.Cancel()` sets the
cancellation signal, then the call waits on a `select` between the
caller's deadline context and a channel closed when the WaitGroup
reaches zero.  `barrierZeroFirst` records which of the two waits
completes first (whether the completion barrier reaches zero before the
deadline); on the deadline the call returns `ctx.Err()` (a deadline-
exceeded error) and on completion it returns `nil`.  In both cases
nothing besides the cancellation flag is written. -/
def workerShutdown (w : WorkerModel) (barrierZeroFirst : Bool) :
    Option String × WorkerModel :=
  let cancelledW := { w with cancelled := true }
  if barrierZeroFirst then (none, cancelledW)
  else (some "context deadline exceeded", cancelledW)

/-- Claim C7: `Shutdown` sets the cancellation signal, returns success
exactly when the completion barrier reaches zero before the caller's
deadline and a timeout error otherwise, and on the timeout path leaves
the still-running tasks and every field other than the cancellation
flag unchanged (no task is aborted). -/
theorem shutdown_deadline_bounded (w : WorkerModel) (b : Bool) :
    ((workerShutdown w b).1 = none ↔ b = true) ∧
    (workerShutdown w b).1
      = (if b then none else some "context deadline exceeded") ∧
    (workerShutdown w b).2.cancelled = true ∧
    (workerShutdown w b).2.barrier = w.barrier ∧
    (workerShutdown w b).2.runningTasks = w.runningTasks := by
  cases b <;> simp [workerShutdown]

/-- The simulated-latency value of `processEvent` (worker.go:215):
`randomTime := 0.05 + rand.Float32()*(0.2-0.05)`, where `r` is the
generator's value in `[0, 1)`.  Arithmetic is modelled exactly over the
rationals; `float32` rounding perturbs the value by far less than the
distance to the nearest integer, which is all the conversion below looks
at. -/
def randomTime (r : Rat) : Rat := 1/20 + r * (1/5 - 1/20)

/-- Go's conversion of a float to `time.Duration` (an `int64` count of
nanoseconds), as in `time.Duration(randomTime)` at worker.go:216: the
fractional part is discarded, truncating toward zero. -/
def goFloatToDuration (x : Rat) : Int := if 0 ≤ x then ⌊x⌋ else -⌊-x⌋

/-- The duration, in nanoseconds, that `processEvent` passes to
`time.Sleep` (worker.go:216). -/
def sleepDurationNs (r : Rat) : Int := goFloatToDuration (randomTime r)

/-- Milliseconds as a count of `time.Duration` nanoseconds. -/
def msToNs (ms : Nat) : Int := (ms : Int) * 1000000

lemma sleepDurationNs_eq_zero (r : Rat) (h0 : 0 ≤ r) (h1 : r < 1) :
    sleepDurationNs r = 0 := by
  have hlow : (0 : Rat) ≤ randomTime r := by
    have : (0 : Rat) ≤ r * (1/5 - 1/20) := by nlinarith
    simp only [randomTime]
    nlinarith
  have hhigh : randomTime r < 1 := by
    simp only [randomTime]
    nlinarith
  simp only [sleepDurationNs, goFloatToDuration, if_pos hlow]
  exact Int.floor_eq_zero_iff.mpr ⟨hlow, hhigh⟩

/-- Claim C8 fails on the code: for the generator values 0, 1/2 and
99/100 (spanning the range `[0, 1)` of `rand.Float32()`), the value
`0.05 + r*(0.2-0.05)` lies in `[0.05, 0.2)`, so `time.Duration(randomTime)`
truncates it to 0 nanoseconds — the sleep passed to `time.Sleep` is 0 ns,
not between 50 ms and 200 ms.  The missing multiplication by
`time.Second` (10^9) is the slip; the spec's 50–200 ms is the stated
intent. -/
theorem sleep_duration_truncates_to_zero :
    sleepDurationNs 0 = 0 ∧
    sleepDurationNs (1/2) = 0 ∧
    sleepDurationNs (99/100) = 0 ∧
    ¬(msToNs 50 ≤ sleepDurationNs (1/2) ∧ sleepDurationNs (1/2) ≤ msToNs 200) := by
  have h0 : sleepDurationNs 0 = 0 := sleepDurationNs_eq_zero 0 le_rfl (by norm_num)
  have h1 : sleepDurationNs (1/2) = 0 :=
    sleepDurationNs_eq_zero (1/2) (by norm_num) (by norm_num)
  have h2 : sleepDurationNs (99/100) = 0 :=
    sleepDurationNs_eq_zero (99/100) (by norm_num) (by norm_num)
  refine ⟨h0, h1, h2, ?_⟩
  rw [h1]
  simp [msToNs]

/-- The deferred functions of a goroutine, in the order they are pushed.
`recoverLog` is a deferred closure that calls `recover()` and logs, as in
`BackgroundJob` (helpers, lines 215-220); `wgDone` and `semRelease` are
the two deferred calls of the per-event goroutine (worker.go:63-64),
neither of which calls `recover()`. -/
inductive DeferKind where
  | wgDone
  | semRelease
  | recoverLog
  deriving DecidableEq, Repr

/-- Whether a deferred function recovers a panic. -/
def isRecover : DeferKind → Bool
  | DeferKind.recoverLog => true
  | DeferKind.wgDone => false
  | DeferKind.semRelease => false

/-- The deferred functions of the per-event processing goroutine spawned
by `Worker.Run` (worker.go:62-64): `w.wg.Done()` and the semaphore read. -/
def perEventTaskDefers : List DeferKind :=
  [DeferKind.wgDone, DeferKind.semRelease]

/-- The deferred functions of the goroutine `BackgroundJob` spawns
(helpers, lines 214-222): a single recover-and-log closure.  `Main`
wraps only the dispatch loop `nWorker.Run(ctx)` in `BackgroundJob`. -/
def backgroundJobDefers : List DeferKind :=
  [DeferKind.recoverLog]

/-- Go panic semantics: a panic unwinds the deferred functions of the
goroutine it occurred in; it is recovered exactly when one of them calls
`recover()`.  A panic no deferred function of its own goroutine recovers
terminates the whole process (a `recover` in another goroutine, such as
the dispatch loop's, is irrelevant). -/
def panicRecovered (defers : List DeferKind) : Bool := defers.any isRecover

/-- A panic in a goroutine with these deferred functions terminates the
process. -/
def panicTerminatesProcess (defers : List DeferKind) : Bool :=
  !(panicRecovered defers)

/-- Claim C9 fails on the code: the per-event processing goroutine
defers only `wg.Done` and the semaphore release — no `recover` — so a
panic inside a processing task terminates the process; only the dispatch
loop itself (wrapped in `BackgroundJob`) has a recover at its boundary. -/
theorem task_panic_terminates_process :
    panicTerminatesProcess perEventTaskDefers = true ∧
    panicTerminatesProcess backgroundJobDefers = false := by
  constructor <;> rfl

/-- Where one `processEvent` invocation (worker.go:178-263) stops.  The
`ThreadID` write (worker.go:208-212) happens after the metadata
serialization and digest but before the result serialization and the
file append, so an invocation either fails before the write
(`failMarshalMeta`, worker.go:188-193) or performs the write and then
either fails (`failAfterThreadID`: result serialization, file open or
file write, worker.go:237-260) or succeeds (`ok`). -/
inductive ProcKind where
  | failMarshalMeta
  | failAfterThreadID
  | ok
  deriving DecidableEq, Repr

/-- Effect of one `processEvent` invocation on the event: the returned
error, the event afterwards, and the number of `ThreadID` writes the
invocation performed. -/
def processEventStep (e : Event) (tid : Int) :
    ProcKind → Option String × Event × Nat
  | ProcKind.failMarshalMeta =>
    (some "failed to serialize the event metadata to json format", e, 0)
  | ProcKind.failAfterThreadID =>
    (some "failed to persist the event processing info", setThreadID e tid, 1)
  | ProcKind.ok => (none, setThreadID e tid, 1)

/-- The per-event task's processing-with-retry (worker.go:92-127),
tracking the event object and the total number of `ThreadID` writes:
one invocation; on failure, if the cancellation check fires the event is
abandoned, otherwise exactly one more invocation. -/
def runTaskWrites (e : Event) (tid : Int) (a1 a2 : ProcKind)
    (cancelledAtCheck : Bool) : Event × Nat :=
  match processEventStep e tid a1 with
  | (none, e1, w1) => (e1, w1)
  | (some _, e1, w1) =>
    if cancelledAtCheck then (e1, w1)
    else
      match processEventStep e1 tid a2 with
      | (_, e2, w2) => (e2, w1 + w2)

/-- A concrete event for the mutation counterexample. -/
def cEvent : Event := NewEventLog "evt1" "info" "hello" 0

/-- Counterexample to claim C10: an event whose first `processEvent`
invocation fails after the `ThreadID` assignment (e.g. at the file
append) and whose retry succeeds has its `ThreadID` field assigned twice
across its lifecycle — worker.go:208-212 runs once per invocation — not
exactly once as the claim states. -/
theorem threadID_assigned_twice_on_retry :
    (runTaskWrites cEvent 7 ProcKind.failAfterThreadID ProcKind.ok false).2
      = 2 ∧
    ¬((runTaskWrites cEvent 7 ProcKind.failAfterThreadID ProcKind.ok false).2
      = 1) := by
  constructor <;> decide

lemma eventFrame_setEnqueueTime (e : Event) (t : Nat) :
    eventFrame (setEnqueueTime e t) = eventFrame e := by
  cases e <;> rfl

lemma eventFrame_setThreadID (e : Event) (t : Int) :
    eventFrame (setThreadID e t) = eventFrame e := by
  cases e <;> rfl

lemma threadID_setEnqueueTime (e : Event) (t : Nat) :
    (setEnqueueTime e t).threadID = e.threadID := by
  cases e <;> rfl

lemma enqTime_setThreadID (e : Event) (t : Int) :
    (setThreadID e t).enqTime = e.enqTime := by
  cases e <;> rfl

lemma enqTime_setEnqueueTime (e : Event) (t : Nat) :
    (setEnqueueTime e t).enqTime = t := by
  cases e <;> rfl

/-- Claim C10 as amended: across an event's lifecycle the only fields
mutated after construction are `EnqueueTime` — assigned exactly once, at
successful admission — and `ThreadID`, which is assigned once per
`processEvent` invocation that reaches worker.go:208-212, hence up to
twice (not exactly once) when the task retries; `id`, `Timestamp` and
the variant payload are unchanged by `PutEvent`, `GetEvent` and
processing, and processing never touches `EnqueueTime`. -/
theorem event_mutation_frame (eq : EventQueue) (e : Event) (now : Nat)
    (tid : Int) (a1 a2 : ProcKind) (c : Bool) :
    eventFrame (eq.PutEvent e now).event = eventFrame e ∧
    (eq.PutEvent e now).event.threadID = e.threadID ∧
    (eq.PutEvent e now).event.enqTime
      = (if eq.Events.length = eq.Capacity then e.enqTime else now) ∧
    (eq.GetEvent).1 = eq.Events.head? ∧
    (eq.GetEvent).2.Events = eq.Events.tail ∧
    eventFrame (runTaskWrites e tid a1 a2 c).1 = eventFrame e ∧
    (runTaskWrites e tid a1 a2 c).1.enqTime = e.enqTime ∧
    (runTaskWrites e tid a1 a2 c).2 ≤ 2 := by
  refine ⟨?_, ?_, ?_, ?_, ?_, ?_, ?_, ?_⟩
  · by_cases h : eq.Events.length = eq.Capacity <;>
      simp [EventQueue.PutEvent, h, eventFrame_setEnqueueTime]
  · by_cases h : eq.Events.length = eq.Capacity <;>
      simp [EventQueue.PutEvent, h, threadID_setEnqueueTime]
  · by_cases h : eq.Events.length = eq.Capacity <;>
      simp [EventQueue.PutEvent, h, enqTime_setEnqueueTime]
  · cases hev : eq.Events <;> simp [EventQueue.GetEvent, hev]
  · cases hev : eq.Events <;> simp [EventQueue.GetEvent, hev]
  · cases a1 <;> cases a2 <;> cases c <;>
      simp [runTaskWrites, processEventStep, eventFrame_setThreadID]
  · cases a1 <;> cases a2 <;> cases c <;>
      simp [runTaskWrites, processEventStep, enqTime_setThreadID]
  · cases a1 <;> cases a2 <;> cases c <;>
      simp [runTaskWrites, processEventStep]
